import Mathlib

/-!
Verification development for the Gen-5 initial-seed search engine
(`wasm-pkg` crate): clock/date encoding tables, the specialized one-block
SHA-1 (scalar and 4-lane), seed derivation, message templating and the
integrated search loops, shallowly embedded over `Nat` with explicit
`% 2^32` / `% 2^64` where the Rust code uses wrapping machine arithmetic.
-/

namespace PokeInit

/-- `2^32`, the modulus of `u32` arithmetic. -/
def M32 : Nat := 4294967296

/-- `2^64`, the modulus of `u64` arithmetic. -/
def M64 : Nat := 18446744073709551616

/-- Wrapping 32-bit addition (`u32::wrapping_add`). -/
def wadd (x y : Nat) : Nat := (x + y) % M32

/-- Bitwise complement on a 32-bit word (`!x` on `u32`), for `x < 2^32`. -/
def notU32 (x : Nat) : Nat := x ^^^ 0xFFFFFFFF

/-- `sha1.rs::left_rotate`: `(value << amount) | (value >> (32 - amount))` on `u32`
(the left shift drops bits above bit 31). -/
def left_rotate (value amount : Nat) : Nat :=
  ((value <<< amount) % M32) ||| (value >>> (32 - amount))

/-- `sha1.rs::choice`: `(x & y) | (!x & z)`. -/
def choice (x y z : Nat) : Nat := (x &&& y) ||| (notU32 x &&& z)

/-- `sha1.rs::parity`: `x ^ y ^ z`. -/
def parity (x y z : Nat) : Nat := x ^^^ y ^^^ z

/-- `sha1.rs::majority`: `(x & y) | (x & z) | (y & z)`. -/
def majority (x y z : Nat) : Nat := (x &&& y) ||| (x &&& z) ||| (y &&& z)

/-- Modelled from the spec: `sha1::swap_bytes_32` (its body is not part of the
extracted sources; only callers and tests are). Per the spec's
"endianness-normalized" words and the test `swap_bytes_32(0x12345678) ==
0x78563412`, it is the full byte reversal of a 32-bit word
(`u32::swap_bytes`). -/
def swap_bytes_32 (value : Nat) : Nat :=
  ((value % 256) <<< 24) ||| (((value >>> 8) % 256) <<< 16) |||
    (((value >>> 16) % 256) <<< 8) ||| ((value >>> 24) % 256)

/-- `sha1.rs::to_little_endian_32`: `value.to_le()`, which on the little-endian
wasm32 / x86 build targets is the identity function (the crate's own test
asserts `to_little_endian_32(0x12345678) == 0x12345678`). -/
def to_little_endian_32 (value : Nat) : Nat := value

/-- A message block, indexed by word position (only indices `0..15` are read). -/
def word_at (l : List Nat) : Nat → Nat := fun i => l.getD i 0

/-- `sha1.rs::calculate_pokemon_sha1`, message schedule: `w[i] = m[i]` for
`i < 16`, else `left_rotate(w[i-3] ^ w[i-8] ^ w[i-14] ^ w[i-16], 1)`. -/
def sha1W (m : Nat → Nat) (i : Nat) : Nat :=
  if h : i < 16 then m i
  else left_rotate (sha1W m (i - 3) ^^^ sha1W m (i - 8) ^^^ sha1W m (i - 14) ^^^ sha1W m (i - 16)) 1
termination_by i
decreasing_by all_goals omega

/-- The round function and round constant for round `i` of
`calculate_pokemon_sha1` (`0..=19` choice, `20..=39` parity, `40..=59`
majority, `60..=79` parity). -/
def sha1FK (i b c d : Nat) : Nat × Nat :=
  if i < 20 then (choice b c d, 0x5A827999)
  else if i < 40 then (parity b c d, 0x6ED9EBA1)
  else if i < 60 then (majority b c d, 0x8F1BBCDC)
  else (parity b c d, 0xCA62C1D6)

/-- The five chaining variables `(a, b, c, d, e)`. -/
def Sha1State : Type := Nat × Nat × Nat × Nat × Nat

/-- One round of the main loop of `calculate_pokemon_sha1`. -/
def sha1Round (m : Nat → Nat) (st : Sha1State) (i : Nat) : Sha1State :=
  let a := st.1
  let b := st.2.1
  let c := st.2.2.1
  let d := st.2.2.2.1
  let e := st.2.2.2.2
  let fk := sha1FK i b c d
  let temp := wadd (wadd (wadd (wadd (left_rotate a 5) fk.1) e) fk.2) (sha1W m i)
  (temp, a, left_rotate b 30, c, d)

/-- `sha1.rs::calculate_pokemon_sha1`: the one-block digest
`(h0, h1, h2, h3, h4)` of a 16-word message. -/
def calculate_pokemon_sha1 (m : Nat → Nat) : Sha1State :=
  let st := (List.range 80).foldl (sha1Round m) (0x67452301, 0xEFCDAB89, 0x98BADCFE, 0x10325476, 0xC3D2E1F0)
  (wadd 0x67452301 st.1, wadd 0xEFCDAB89 st.2.1, wadd 0x98BADCFE st.2.2.1,
    wadd 0x10325476 st.2.2.2.1, wadd 0xC3D2E1F0 st.2.2.2.2)

/-- The five digest words as a list. -/
def sha1ToList (st : Sha1State) : List Nat :=
  [st.1, st.2.1, st.2.2.1, st.2.2.2.1, st.2.2.2.2]

/-! ### 4-lane SIMD digest (`sha1_simd.rs`, wasm32 path)

A `v128` vector of four 32-bit lanes is embedded as a function from the lane
index to the lane value; every wasm SIMD intrinsic used by the code acts
lanewise. -/

/-- A 4-lane vector of 32-bit words (lanes `0..3` are meaningful). -/
def V4 : Type := Nat → Nat

/-- `u32x4_splat`. -/
def u32x4_splat (x : Nat) : V4 := fun _ => x

/-- `u32x4_add`: lanewise wrapping addition. -/
def u32x4_add (a b : V4) : V4 := fun lane => wadd (a lane) (b lane)

/-- `v128_xor`: lanewise xor. -/
def v128_xor (a b : V4) : V4 := fun lane => a lane ^^^ b lane

/-- `v128_and`: lanewise and. -/
def v128_and (a b : V4) : V4 := fun lane => a lane &&& b lane

/-- `v128_or`: lanewise or. -/
def v128_or (a b : V4) : V4 := fun lane => a lane ||| b lane

/-- `v128_andnot a b = a & !b` (wasm `v128.andnot`). -/
def v128_andnot (a b : V4) : V4 := fun lane => a lane &&& notU32 (b lane)

/-- `sha1_simd.rs::simd_left_rotate`: lanewise `(v << amt) | (v >> (32 - amt))`. -/
def simd_left_rotate (v : V4) (amount : Nat) : V4 :=
  v128_or (fun lane => (v lane <<< amount) % M32) (fun lane => v lane >>> (32 - amount))

/-- `sha1_simd.rs::simd_choice`: `(x & y) | (z & !x)` via `v128_andnot(z, x)`. -/
def simd_choice (x y z : V4) : V4 := v128_or (v128_and x y) (v128_andnot z x)

/-- `sha1_simd.rs::simd_parity`. -/
def simd_parity (x y z : V4) : V4 := v128_xor (v128_xor x y) z

/-- `sha1_simd.rs::simd_majority`. -/
def simd_majority (x y z : V4) : V4 :=
  v128_or (v128_or (v128_and x y) (v128_and x z)) (v128_and y z)

/-- The SIMD message schedule: lane `l` of `w[i]` is loaded from
`messages[16*l + i]` for `i < 16`, and expanded lanewise for `16 ≤ i < 80`. -/
def sha1Wsimd (m : Nat → Nat) (i : Nat) : V4 :=
  if h : i < 16 then fun lane => m (16 * lane + i)
  else simd_left_rotate
    (v128_xor (v128_xor (v128_xor (sha1Wsimd m (i - 3)) (sha1Wsimd m (i - 8))) (sha1Wsimd m (i - 14))) (sha1Wsimd m (i - 16))) 1
termination_by i
decreasing_by all_goals omega

/-- Round functions / constants for the SIMD main loop. -/
def sha1FKsimd (i : Nat) (b c d : V4) : V4 × V4 :=
  if i < 20 then (simd_choice b c d, u32x4_splat 0x5A827999)
  else if i < 40 then (simd_parity b c d, u32x4_splat 0x6ED9EBA1)
  else if i < 60 then (simd_majority b c d, u32x4_splat 0x8F1BBCDC)
  else (simd_parity b c d, u32x4_splat 0xCA62C1D6)

/-- The SIMD chaining state. -/
def V4State : Type := V4 × V4 × V4 × V4 × V4

/-- One round of the SIMD main loop
(`temp = left_rotate(a,5) + f + e + k + w[i]`, lanewise). -/
def sha1RoundSimd (m : Nat → Nat) (st : V4State) (i : Nat) : V4State :=
  let a := st.1
  let b := st.2.1
  let c := st.2.2.1
  let d := st.2.2.2.1
  let e := st.2.2.2.2
  let fk := sha1FKsimd i b c d
  let temp := u32x4_add (u32x4_add (u32x4_add (u32x4_add (simd_left_rotate a 5) fk.1) e) fk.2) (sha1Wsimd m i)
  (temp, a, simd_left_rotate b 30, c, d)

/-- `sha1_simd.rs::calculate_pokemon_sha1_simd` (wasm32 path): digests of four
16-word blocks packed in a 64-word array, returned as 20 words, lane `l`
occupying positions `5*l .. 5*l+4`. -/
def calculate_pokemon_sha1_simd (m : Nat → Nat) : List Nat :=
  let st := (List.range 80).foldl (sha1RoundSimd m)
    (u32x4_splat 0x67452301, u32x4_splat 0xEFCDAB89, u32x4_splat 0x98BADCFE,
      u32x4_splat 0x10325476, u32x4_splat 0xC3D2E1F0)
  let h0f := u32x4_add (u32x4_splat 0x67452301) st.1
  let h1f := u32x4_add (u32x4_splat 0xEFCDAB89) st.2.1
  let h2f := u32x4_add (u32x4_splat 0x98BADCFE) st.2.2.1
  let h3f := u32x4_add (u32x4_splat 0x10325476) st.2.2.2.1
  let h4f := u32x4_add (u32x4_splat 0xC3D2E1F0) st.2.2.2.2
  (List.range 4).flatMap fun lane => [h0f lane, h1f lane, h2f lane, h3f lane, h4f lane]

/-! ### Seed derivation (`sha1.rs::calculate_pokemon_seed_from_hash`) -/

/-- `sha1.rs::calculate_pokemon_seed_from_hash`: builds the 64-bit LCG input
`(h1.to_le() << 32) | h0.to_le()` (a no-op endianness conversion on the
little-endian target), advances one wrapping 64-bit LCG step with multiplier
`0x5D588B656C078965` and increment `0x269EC3`, and returns the upper 32 bits. -/
def calculate_pokemon_seed_from_hash (h0 h1 : Nat) : Nat :=
  let h0_le := to_little_endian_32 h0
  let h1_le := to_little_endian_32 h1
  let lcg_seed := (h1_le <<< 32) ||| h0_le
  let seed := (lcg_seed * 0x5D588B656C078965 + 0x269EC3) % M64
  (seed >>> 32) &&& 0xFFFFFFFF

/-- The seed-derivation pipeline as worded by the spec/claim: byte-swap the two
digest words, concatenate, one LCG step, upper 32 bits. Stated separately so
it can be compared with the code's actual derivation. -/
def specSeedFromHash (h0 h1 : Nat) : Nat :=
  let h0s := swap_bytes_32 h0
  let h1s := swap_bytes_32 h1
  let x := (h1s <<< 32) ||| h0s
  ((x * 0x5D588B656C078965 + 0x269EC3) % M64) >>> 32

/-! ### Clock encoding tables (`datetime_codes.rs`) -/

/-- One entry of `TimeCodeGenerator::generate_all_time_codes`: the packed BCD
code for `hour:minute:second`. -/
def timeCodeEntry (hour minute second : Nat) : Nat :=
  let hCode := ((hour / 10) <<< 28) ||| ((hour % 10) <<< 24)
  let minCode := ((minute / 10) <<< 20) ||| ((minute % 10) <<< 16)
  let secCode := ((second / 10) <<< 12) ||| ((second % 10) <<< 8)
  hCode ||| minCode ||| secCode

/-- `TimeCodeGenerator::TIME_CODES`: all 86,400 codes, in loop order
(hour-major, then minute, then second). -/
def timeCodesList : List Nat :=
  (List.range 24).flatMap fun hour =>
    (List.range 60).flatMap fun minute =>
      (List.range 60).map fun second => timeCodeEntry hour minute second

/-- `TimeCodeGenerator::get_time_code`: table lookup with sentinel `0` for
out-of-range indices. -/
def get_time_code (seconds_of_day : Nat) : Nat :=
  if seconds_of_day < timeCodesList.length then timeCodesList.getD seconds_of_day 0 else 0

/-- `TimeCodeGenerator::get_time_code_for_hardware`: DS / DS_LITE OR in the PM
flag `0x40000000` for hours `≥ 12`; 3DS and any unrecognized string return the
base code. -/
def get_time_code_for_hardware (seconds_of_day : Nat) (hardware : String) : Nat :=
  let base_code := get_time_code seconds_of_day
  if hardware = "DS" ∨ hardware = "DS_LITE" then
    if 12 ≤ seconds_of_day / 3600 then base_code ||| 0x40000000 else base_code
  else if hardware = "3DS" then base_code
  else base_code

/-- Reference BCD time encoding, following the claim's words: the packed word
computed from `(s/3600, (s/60)%60, s%60)`. -/
def refTimeCode (s : Nat) : Nat :=
  ((s / 3600 / 10) <<< 28) ||| ((s / 3600 % 10) <<< 24) |||
    ((s / 60 % 60 / 10) <<< 20) ||| ((s / 60 % 60 % 10) <<< 16) |||
    ((s % 60 / 10) <<< 12) ||| ((s % 60 % 10) <<< 8)

/-- `DateCodeGenerator::is_leap_year`. -/
def is_leap_year (year : Nat) : Bool :=
  (year % 4 == 0 && year % 100 != 0) || year % 400 == 0

/-- `DateCodeGenerator::days_in_month`. -/
def days_in_month (year month : Nat) : Nat :=
  match month with
  | 1 | 3 | 5 | 7 | 8 | 10 | 12 => 31
  | 4 | 6 | 9 | 11 => 30
  | 2 => if is_leap_year year then 29 else 28
  | _ => 0

/-- The `DAYS_BEFORE_MONTH` table of `get_day_of_week`. -/
def DAYS_BEFORE_MONTH : List Nat :=
  [0, 0, 31, 59, 90, 120, 151, 181, 212, 243, 273, 304, 334]

/-- The `total_days` count computed inside `DateCodeGenerator::get_day_of_week`:
days elapsed since 2000-01-01 (valid for years `2000..=2099`). -/
def total_days (year month day : Nat) : Nat :=
  let years_since_2000 := year - 2000
  let leap_years := (years_since_2000 + 3) / 4 - years_since_2000 / 100 + years_since_2000 / 400
  let days_from_years := years_since_2000 * 365 + leap_years
  let days_from_months := DAYS_BEFORE_MONTH.getD month 0
  let leap_adjustment := if 2 < month && is_leap_year year then 1 else 0
  days_from_years + days_from_months + leap_adjustment + day - 1

/-- `DateCodeGenerator::get_day_of_week`: `(6 + total_days) % 7`
(2000-01-01 anchored as Saturday = 6). -/
def get_day_of_week (year month day : Nat) : Nat :=
  (6 + total_days year month day) % 7

/-- One entry of `DateCodeGenerator::generate_all_date_codes`: the packed
`YYMMDDWW` BCD code of a calendar date. -/
def date_code_entry (year month day : Nat) : Nat :=
  let dow := get_day_of_week year month day
  let year_val := year % 100
  let yy_bcd := ((year_val / 10) <<< 4) ||| (year_val % 10)
  let mm_bcd := ((month / 10) <<< 4) ||| (month % 10)
  let dd_bcd := ((day / 10) <<< 4) ||| (day % 10)
  let ww_bcd := ((dow / 10) <<< 4) ||| (dow % 10)
  (yy_bcd <<< 24) ||| (mm_bcd <<< 16) ||| (dd_bcd <<< 8) ||| ww_bcd

/-- The codes generated for one month (days `1 ..= days_in_month`). -/
def monthBlock (year month : Nat) : List Nat :=
  (List.range (days_in_month year month)).map fun d0 => date_code_entry year month (d0 + 1)

/-- The codes generated for one year (months `1 ..= 12`). -/
def yearBlock (year : Nat) : List Nat :=
  (List.range 12).flatMap fun m0 => monthBlock year (m0 + 1)

/-- `DateCodeGenerator::DATE_CODES`: all codes for years `2000 ..= 2099`, in
generation order. -/
def dateCodesList : List Nat :=
  (List.range 100).flatMap fun i => yearBlock (2000 + i)

/-- `DateCodeGenerator::get_date_code`: table lookup with sentinel `0`. -/
def get_date_code (days_since_2000 : Nat) : Nat :=
  if days_since_2000 < dateCodesList.length then dateCodesList.getD days_since_2000 0 else 0

/-! ### Reference Gregorian calendar (from the claims' words)

"The Gregorian calendar date exactly `d` days after 2000-01-01" is embedded
literally: the successor function on calendar dates, iterated `d` times from
`(2000, 1, 1)`. -/

/-- Gregorian leap year, as the claim words it: divisible by 4 and not by 100,
or divisible by 400. -/
def gregLeap (year : Nat) : Bool :=
  (year % 4 == 0 && year % 100 != 0) || year % 400 == 0

/-- Gregorian month lengths. -/
def gregMonthLen (year month : Nat) : Nat :=
  match month with
  | 1 | 3 | 5 | 7 | 8 | 10 | 12 => 31
  | 4 | 6 | 9 | 11 => 30
  | 2 => if gregLeap year then 29 else 28
  | _ => 0

/-- The day after a Gregorian calendar date `(year, month, day)`. -/
def nextDay : Nat × Nat × Nat → Nat × Nat × Nat := fun ymd =>
  let year := ymd.1
  let month := ymd.2.1
  let day := ymd.2.2
  if day < gregMonthLen year month then (year, month, day + 1)
  else if month < 12 then (year, month + 1, 1)
  else (year + 1, 1, 1)

/-- The Gregorian calendar date exactly `d` days after 2000-01-01. -/
def refDate (d : Nat) : Nat × Nat × Nat := nextDay^[d] (2000, 1, 1)

/-- Two-digit BCD encoding of `v` (`v ≤ 99`). -/
def bcd2 (v : Nat) : Nat := ((v / 10) <<< 4) ||| (v % 10)

/-- Reference date code, following the claim's words: the packed word
`(yy_bcd<<24)|(mm_bcd<<16)|(dd_bcd<<8)|ww_bcd` of the Gregorian date `d` days
after 2000-01-01, with the weekday `(6 + d) % 7` (2000-01-01 = Saturday = 6). -/
def refDateCode (d : Nat) : Nat :=
  let ymd := refDate d
  (bcd2 (ymd.1 % 100) <<< 24) ||| (bcd2 ymd.2.1 <<< 16) ||| (bcd2 ymd.2.2 <<< 8) |||
    bcd2 ((6 + d) % 7)

/-! ### Session template (`searcher.rs::IntegratedSeedSearcher`) -/

/-- The search session: validated hardware profile and the precomputed 16-word
base message template. -/
structure IntegratedSeedSearcher where
  hardware : String
  base_message : List Nat

/-- The base-message template built by `IntegratedSeedSearcher::new`:
words 0-4 the byte-swapped nazo values, word 5 dynamic (0 in the template),
word 6 the MAC low half, word 7 `swap(mac_upper ^ 0x06000000 ^ frame)`,
words 8-9 dynamic, 10-11 zero, word 12 `swap(key_input)`, words 13-15 the
fixed SHA-1 padding epilogue. -/
def buildBaseMessage (mac nazo : List Nat) (key_input frame : Nat) : List Nat :=
  let mac_lower := ((mac.getD 4 0) <<< 8) ||| (mac.getD 5 0)
  let mac_upper := (mac.getD 0 0) ||| ((mac.getD 1 0) <<< 8) ||| ((mac.getD 2 0) <<< 16) |||
    ((mac.getD 3 0) <<< 24)
  let data7 := mac_upper ^^^ 0x06000000 ^^^ frame
  [swap_bytes_32 (nazo.getD 0 0), swap_bytes_32 (nazo.getD 1 0), swap_bytes_32 (nazo.getD 2 0),
    swap_bytes_32 (nazo.getD 3 0), swap_bytes_32 (nazo.getD 4 0), 0,
    mac_lower, swap_bytes_32 data7, 0, 0, 0, 0, swap_bytes_32 key_input,
    0x80000000, 0, 0x000001A0]

/-- `IntegratedSeedSearcher::new`: validates the MAC length (6),
the nazo length (5) and the hardware token, then precomputes the template. -/
def IntegratedSeedSearcher.new (mac nazo : List Nat) (hardware : String)
    (key_input frame : Nat) : Except String IntegratedSeedSearcher :=
  if mac.length ≠ 6 then .error "MAC address must be 6 bytes"
  else if nazo.length ≠ 5 then .error "nazo must be 5 32-bit words"
  else if hardware = "DS" ∨ hardware = "DS_LITE" ∨ hardware = "3DS" then
    .ok ⟨hardware, buildBaseMessage mac nazo key_input frame⟩
  else .error "Hardware must be DS, DS_LITE, or 3DS"

/-! ### Calendar conversions of the `chrono` crate

`search_algorithms.rs` converts the start datetime with
`NaiveDate::from_ymd_opt(..).and_hms_opt(..)` and reconstructs display
datetimes with `DateTime::from_timestamp`. `chrono` is an external crate;
its proleptic-Gregorian semantics are embedded here. -/

/-- The `year_start as i32` cast (`u32 → i32`, two's complement). -/
def u32AsI32 (y : Nat) : Int := if y < 2147483648 then (y : Int) else (y : Int) - 4294967296

/-- Gregorian leap year on `Int` years (proleptic, for the `chrono` model). -/
def gregLeapI (year : Int) : Bool :=
  (year % 4 == 0 && year % 100 != 0) || year % 400 == 0

/-- Gregorian month lengths on `Int` years. -/
def gregMonthLenI (year : Int) (month : Nat) : Nat :=
  match month with
  | 1 | 3 | 5 | 7 | 8 | 10 | 12 => 31
  | 4 | 6 | 9 | 11 => 30
  | 2 => if gregLeapI year then 29 else 28
  | _ => 0

/-- Modelled from the spec: `chrono::NaiveDate::from_ymd_opt` succeeds exactly
on valid proleptic-Gregorian dates within chrono's representable year range
`-262144 ..= 262143`. -/
def chronoValidDate (year : Int) (month day : Nat) : Bool :=
  (-262144 ≤ year && year ≤ 262143) && (1 ≤ month && month ≤ 12) &&
    (1 ≤ day && day ≤ gregMonthLenI year month)

/-- Modelled from the spec: `chrono::NaiveDate::and_hms_opt` succeeds exactly
when `hour < 24`, `minute < 60`, `second < 60`. -/
def chronoValidTime (hour minute second : Nat) : Bool :=
  hour < 24 && minute < 60 && second < 60

/-- Days in a Gregorian year. -/
def gregYearLen (year : Nat) : Nat := if gregLeap year then 366 else 365

/-- Total days of the `n` Gregorian years `start, start+1, ..., start+n-1`. -/
def yearsLen (start n : Nat) : Nat :=
  match n with
  | 0 => 0
  | n + 1 => gregYearLen start + yearsLen (start + 1) n

/-- Total days of the `k` months `m, m+1, ..., m+k-1` of Gregorian year `y`. -/
def monthsLen (y m k : Nat) : Nat :=
  match k with
  | 0 => 0
  | k + 1 => gregMonthLen y m + monthsLen y (m + 1) k

/-- Days in a Gregorian year, `Int` year. -/
def gregYearLenI (year : Int) : Nat := if gregLeapI year then 366 else 365

/-- Total days of the `n` Gregorian years from `start` upward, `Int` year. -/
def yearsLenI (start : Int) (n : Nat) : Nat :=
  match n with
  | 0 => 0
  | n + 1 => gregYearLenI start + yearsLenI (start + 1) n

/-- Total days of the `k` months `m, ..., m+k-1` of `Int` Gregorian year `y`. -/
def monthsLenI (y : Int) (m k : Nat) : Nat :=
  match k with
  | 0 => 0
  | k + 1 => gregMonthLenI y m + monthsLenI y (m + 1) k

/-- Days between 2000-01-01 and the Gregorian date `(y, m, d)` (negative for
dates before the epoch), modelling chrono's day numbering shifted to the
2000-01-01 epoch. -/
def daysSince2000 (y : Int) (m d : Nat) : Int :=
  let yearPart : Int :=
    if 2000 ≤ y then (yearsLenI 2000 (y - 2000).toNat : Int)
    else -(yearsLenI y (2000 - y).toNat : Int)
  yearPart + (monthsLenI y 1 (m - 1) : Int) + d - 1

/-- Seconds between 2000-01-01 00:00:00 and `(y,m,d,h,mi,s)`: the code's
`base_seconds_since_2000 = start_unix - EPOCH_2000_UNIX`, with
`EPOCH_2000_UNIX = 946684800 = 10957 * 86400` cancelling chrono's 1970 epoch. -/
def search_start (year month date hour minute second : Nat) : Option Int :=
  let y := u32AsI32 year
  if chronoValidDate y month date && chronoValidTime hour minute second then
    some (86400 * daysSince2000 y month date + (hour * 3600 + minute * 60 + second : Nat))
  else none

/-- Modelled from the spec: `chrono::DateTime::from_timestamp` followed by
field extraction, as used by `generate_display_datetime`. The search only
calls it with non-negative seconds-since-2000; `chrono` returns `None` beyond
its maximal year. -/
def generate_display_datetime (seconds_since_2000 : Int) :
    Option (Nat × Nat × Nat × Nat × Nat × Nat) :=
  if seconds_since_2000 < 0 then none
  else
    let n := seconds_since_2000.toNat
    let ymd := refDate (n / 86400)
    if ymd.1 ≤ 262143 then
      some (ymd.1, ymd.2.1, ymd.2.2, n % 86400 / 3600, n % 86400 / 60 % 60, n % 60)
    else none

/-! ### Search algorithms (`search_algorithms.rs`) -/

/-- Modelled from the spec: the match record (`SearchResult`, whose module is
not among the extracted sources): the seed, the five digest words (the code
renders them as a 40-hex-character string), the reconstructed calendar fields
and the two register values. -/
structure SearchResult where
  seed : Nat
  h0 : Nat
  h1 : Nat
  h2 : Nat
  h3 : Nat
  h4 : Nat
  year : Nat
  month : Nat
  date : Nat
  hour : Nat
  minute : Nat
  second : Nat
  timer0 : Nat
  vcount : Nat
deriving DecidableEq

/-- `search_algorithms.rs::calculate_datetime_codes`: `None` for pre-epoch
seconds, otherwise the hardware-adjusted time code and the date code. -/
def calculate_datetime_codes (se : IntegratedSeedSearcher) (seconds_since_2000 : Int) :
    Option (Nat × Nat) :=
  if seconds_since_2000 < 0 then none
  else
    let time_index := seconds_since_2000.toNat % 86400
    let date_index := seconds_since_2000.toNat / 86400
    some (get_time_code_for_hardware time_index se.hardware, get_date_code date_index)

/-- The dynamic word 5: `swap_bytes_32((vcount << 16) | timer0)` on `u32`. -/
def timerVcountWord (timer0 vcount : Nat) : Nat :=
  swap_bytes_32 (((vcount <<< 16) % M32) ||| timer0)

/-- `search_algorithms.rs::build_message`: the template with words 5, 8, 9
overwritten. -/
def build_message (se : IntegratedSeedSearcher) (timer0 vcount date_code time_code : Nat) :
    List Nat :=
  ((se.base_message.set 5 (timerVcountWord timer0 vcount)).set 8 date_code).set 9 time_code

/-- `search_algorithms.rs::check_and_add_result`: on a target-set hit (and only
then) reconstruct the calendar fields and materialize the record. -/
def check_and_add_result (se : IntegratedSeedSearcher) (seed : Nat) (h : Sha1State)
    (seconds_since_2000 : Int) (timer0 vcount : Nat) (targets : List Nat) :
    Option SearchResult :=
  if seed ∈ targets then
    match generate_display_datetime seconds_since_2000 with
    | some (y, mo, d, hh, mi, s) =>
        some ⟨seed, h.1, h.2.1, h.2.2.1, h.2.2.2.1, h.2.2.2.2, y, mo, d, hh, mi, s, timer0, vcount⟩
    | none => none
  else none

/-- The per-candidate body of the scalar search loop: datetime codes, message,
digest, seed, membership test. -/
def step_result (se : IntegratedSeedSearcher) (targets : List Nat) (base : Int)
    (timer0 vcount off : Nat) : Option SearchResult :=
  let secs := base + (off : Int)
  match calculate_datetime_codes se secs with
  | none => none
  | some (time_code, date_code) =>
    let message := build_message se timer0 vcount date_code time_code
    let h := calculate_pokemon_sha1 (word_at message)
    let seed := calculate_pokemon_seed_from_hash h.1 h.2.1
    check_and_add_result se seed h secs timer0 vcount targets

/-- `search_algorithms.rs::search_seeds_integrated` (scalar): outer loops over
`timer0` and `vcount` (inclusive ranges), inner loop over the second offsets. -/
def search_seeds_integrated (se : IntegratedSeedSearcher)
    (year_start month_start date_start hour_start minute_start second_start : Nat)
    (range_seconds timer0_min timer0_max vcount_min vcount_max : Nat)
    (target_seeds : List Nat) : List SearchResult :=
  match search_start year_start month_start date_start hour_start minute_start second_start with
  | none => []
  | some base =>
    (List.range' timer0_min (timer0_max + 1 - timer0_min)).flatMap fun timer0 =>
      (List.range' vcount_min (vcount_max + 1 - vcount_min)).flatMap fun vcount =>
        (List.range range_seconds).filterMap fun off =>
          step_result se target_seeds base timer0 vcount off

/-- The 64-word message block packed by `process_simd_batch`: word `idx` of
lane `idx / 16` (words of invalid pre-epoch lanes are left `0`, matching the
zero-initialized array). -/
def batchMsgs (se : IntegratedSeedSearcher) (base : Int)
    (timer0 vcount second_offset : Nat) : Nat → Nat := fun idx =>
  let lane := idx / 16
  match calculate_datetime_codes se (base + ((second_offset + lane : Nat) : Int)) with
  | some tc_dc => word_at (build_message se timer0 vcount tc_dc.2 tc_dc.1) (idx % 16)
  | none => 0

/-- `search_algorithms.rs::process_simd_batch`: four consecutive second
offsets, messages packed into a 64-word block (invalid lanes left zero), one
4-lane digest, then the same per-lane match logic. -/
def process_simd_batch (se : IntegratedSeedSearcher) (targets : List Nat) (base : Int)
    (timer0 vcount second_offset : Nat) : List SearchResult :=
  let hash_results := calculate_pokemon_sha1_simd (batchMsgs se base timer0 vcount second_offset)
  (List.range 4).filterMap fun i =>
    match calculate_datetime_codes se (base + ((second_offset + i : Nat) : Int)) with
    | none => none
    | some _ =>
      let h0 := hash_results.getD (i * 5) 0
      let h1 := hash_results.getD (i * 5 + 1) 0
      let h2 := hash_results.getD (i * 5 + 2) 0
      let h3 := hash_results.getD (i * 5 + 3) 0
      let h4 := hash_results.getD (i * 5 + 4) 0
      let seed := calculate_pokemon_seed_from_hash h0 h1
      check_and_add_result se seed (h0, h1, h2, h3, h4)
        (base + ((second_offset + i : Nat) : Int)) timer0 vcount targets

/-- `search_algorithms.rs::process_remaining_seconds`: the final
`range mod 4` offsets, handled by the scalar body. -/
def process_remaining_seconds (se : IntegratedSeedSearcher) (targets : List Nat) (base : Int)
    (timer0 vcount second_offset batch_size : Nat) : List SearchResult :=
  (List.range batch_size).filterMap fun i =>
    step_result se targets base timer0 vcount (second_offset + i)

/-- The inner second-offset loop of the SIMD search: chunks of 4 via
`process_simd_batch`, remainder via `process_remaining_seconds`. -/
def simdSecondLoop (se : IntegratedSeedSearcher) (targets : List Nat) (base : Int)
    (timer0 vcount : Nat) (off rem : Nat) : List SearchResult :=
  if rem = 0 then []
  else if 4 ≤ rem then
    process_simd_batch se targets base timer0 vcount off ++
      simdSecondLoop se targets base timer0 vcount (off + 4) (rem - 4)
  else process_remaining_seconds se targets base timer0 vcount off rem
termination_by rem
decreasing_by omega

/-- `search_algorithms.rs::search_seeds_integrated_simd`: same outer register
loops, SIMD-batched inner loop. -/
def search_seeds_integrated_simd (se : IntegratedSeedSearcher)
    (year_start month_start date_start hour_start minute_start second_start : Nat)
    (range_seconds timer0_min timer0_max vcount_min vcount_max : Nat)
    (target_seeds : List Nat) : List SearchResult :=
  match search_start year_start month_start date_start hour_start minute_start second_start with
  | none => []
  | some base =>
    (List.range' timer0_min (timer0_max + 1 - timer0_min)).flatMap fun timer0 =>
      (List.range' vcount_min (vcount_max + 1 - vcount_min)).flatMap fun vcount =>
        simdSecondLoop se target_seeds base timer0 vcount 0 range_seconds

/-- The digest the engine computes for the candidate at second offset `off`
(meaningful when `base + off ≥ 0`): the composition of the datetime-code
lookups, message build and one-block digest performed by the search loop. -/
def engineDigest (se : IntegratedSeedSearcher) (base : Int) (timer0 vcount off : Nat) :
    Sha1State :=
  let secs := base + (off : Int)
  let tcode := get_time_code_for_hardware (secs.toNat % 86400) se.hardware
  let dcode := get_date_code (secs.toNat / 86400)
  calculate_pokemon_sha1 (word_at (build_message se timer0 vcount dcode tcode))

/-- The seed the engine derives for the candidate at second offset `off`. -/
def engineSeed (se : IntegratedSeedSearcher) (base : Int) (timer0 vcount off : Nat) : Nat :=
  calculate_pokemon_seed_from_hash (engineDigest se base timer0 vcount off).1
    (engineDigest se base timer0 vcount off).2.1

/-- The record fields the claims compare: seed, calendar fields, registers. -/
def resultTuple (r : SearchResult) : Nat × Nat × Nat × Nat × Nat × Nat × Nat × Nat × Nat :=
  (r.seed, r.year, r.month, r.date, r.hour, r.minute, r.second, r.timer0, r.vcount)

/-! ## Claims -/

/-- **C3, counterexample.** The claim's byte-swapping derivation disagrees with
the code at `(h0, h1) = (1, 0)`: `to_le()` is the identity on the little-endian
target, not a byte swap. -/
theorem c3_seed_swap_counterexample :
    calculate_pokemon_seed_from_hash 1 0 ≠ specSeedFromHash 1 0 := by decide

/-- **C3 (amended).** For every pair `(h0, h1)` of 32-bit digest words,
`calculate_pokemon_seed_from_hash` takes `h0` and `h1` unchanged (`to_le()` is
the identity on the little-endian target), concatenates them into
`(h1 << 32) | h0`, advances one wrapping 64-bit LCG step
`x' = x * 0x5D588B656C078965 + 0x269EC3`, and returns the upper 32 bits of
`x'`. The function is pure and total: it is defined by this equation for every
input, including `(0, 0)` and `(u32::MAX, u32::MAX)`. -/
theorem c3_seed_from_hash_eq :
    ∀ h0 h1 : Nat, calculate_pokemon_seed_from_hash h0 h1 =
      ((((h1 <<< 32) ||| h0) * 0x5D588B656C078965 + 0x269EC3) % M64) >>> 32 := by
  intro h0 h1
  show (((((h1 <<< 32) ||| h0) * 0x5D588B656C078965 + 0x269EC3) % M64) >>> 32) &&& 0xFFFFFFFF = _
  have hlt : ((((h1 <<< 32) ||| h0) * 0x5D588B656C078965 + 0x269EC3) % M64) >>> 32 < 2 ^ 32 := by
    rw [Nat.shiftRight_eq_div_pow]
    have h1' : (((h1 <<< 32) ||| h0) * 0x5D588B656C078965 + 0x269EC3) % M64 < M64 :=
      Nat.mod_lt _ (by decide)
    have : M64 = 2 ^ 32 * 2 ^ 32 := by decide
    omega
  have hmask : (0xFFFFFFFF : Nat) = 2 ^ 32 - 1 := by decide
  rw [hmask, Nat.and_pow_two_sub_one_of_lt_two_pow hlt]

/-! ### Reference calendar iteration -/

theorem flatMap_congr {α β : Type} {l : List α} {f g : α → List β}
    (h : ∀ x ∈ l, f x = g x) : l.flatMap f = l.flatMap g := by
  induction l with
  | nil => rfl
  | cons a t ih =>
      rw [List.flatMap_cons, List.flatMap_cons, h a (by simp),
        ih fun x hx => h x (List.mem_cons_of_mem a hx)]

theorem gregMonthLen_eq (y m : Nat) : gregMonthLen y m = days_in_month y m := rfl

theorem gregMonthLen_pos {y m : Nat} (h1 : 1 ≤ m) (h2 : m ≤ 12) :
    1 ≤ gregMonthLen y m := by
  interval_cases m <;> simp [gregMonthLen] <;> split_ifs <;> omega

theorem nextDay_within {y m d : Nat} (h : d < gregMonthLen y m) :
    nextDay (y, m, d) = (y, m, d + 1) := by
  simp [nextDay, h]

theorem nextDay_iterate_within {y m : Nat} :
    ∀ r d, 1 ≤ d → d + r ≤ gregMonthLen y m → nextDay^[r] (y, m, d) = (y, m, d + r) := by
  intro r
  induction r with
  | zero => intro d _ _; simp
  | succ k ih =>
      intro d hd hle
      have hstep : nextDay (y, m, d) = (y, m, d + 1) := nextDay_within (by omega)
      rw [Function.iterate_succ_apply, hstep, ih (d + 1) (by omega) (by omega),
        show d + 1 + k = d + (k + 1) from by omega]

theorem nextDay_month_end {y m : Nat} (h1 : m < 12) :
    nextDay (y, m, gregMonthLen y m) = (y, m + 1, 1) := by
  simp [nextDay, h1]

theorem nextDay_year_end (y : Nat) :
    nextDay (y, 12, gregMonthLen y 12) = (y + 1, 1, 1) := by
  simp [nextDay]

theorem nextDay_iterate_month_lt {y m : Nat} (h1 : 1 ≤ m) (h2 : m < 12) :
    nextDay^[gregMonthLen y m] (y, m, 1) = (y, m + 1, 1) := by
  have hpos : 1 ≤ gregMonthLen y m := gregMonthLen_pos h1 (by omega)
  have hsucc : gregMonthLen y m = (gregMonthLen y m - 1) + 1 := by omega
  rw [hsucc, Function.iterate_succ_apply',
    nextDay_iterate_within (gregMonthLen y m - 1) 1 (by omega) (by omega),
    show 1 + (gregMonthLen y m - 1) = gregMonthLen y m from by omega,
    nextDay_month_end h2]

theorem nextDay_iterate_month_12 (y : Nat) :
    nextDay^[gregMonthLen y 12] (y, 12, 1) = (y + 1, 1, 1) := by
  have hpos : 1 ≤ gregMonthLen y 12 := gregMonthLen_pos (by omega) (by omega)
  have hsucc : gregMonthLen y 12 = (gregMonthLen y 12 - 1) + 1 := by omega
  rw [hsucc, Function.iterate_succ_apply',
    nextDay_iterate_within (gregMonthLen y 12 - 1) 1 (by omega) (by omega),
    show 1 + (gregMonthLen y 12 - 1) = gregMonthLen y 12 from by omega,
    nextDay_year_end]

theorem monthsLen_succ (y m k : Nat) :
    monthsLen y m (k + 1) = gregMonthLen y m + monthsLen y (m + 1) k := rfl

theorem nextDay_iterate_months (y : Nat) :
    ∀ k m, 1 ≤ m → m ≤ 12 → m + k ≤ 13 →
      nextDay^[monthsLen y m k] (y, m, 1) =
        if m + k ≤ 12 then (y, m + k, 1) else (y + 1, 1, 1) := by
  intro k
  induction k with
  | zero =>
      intro m h1 h2 _
      rw [if_pos (by omega)]
      simp [monthsLen]
  | succ k ih =>
      intro m h1 h2 h3
      rw [monthsLen_succ, Nat.add_comm (gregMonthLen y m), Function.iterate_add_apply]
      by_cases hm : m < 12
      · rw [nextDay_iterate_month_lt h1 hm, ih (m + 1) (by omega) (by omega) (by omega)]
        by_cases hk : m + (k + 1) ≤ 12
        · rw [if_pos (by omega), if_pos hk]
          congr 2
          omega
        · rw [if_neg (by omega), if_neg hk]
      · have hm12 : m = 12 := by omega
        have hk0 : k = 0 := by omega
        subst hm12 hk0
        rw [show monthsLen y 13 0 = 0 from rfl, Function.iterate_zero_apply,
          nextDay_iterate_month_12, if_neg (by omega)]

theorem monthsLen_one_twelve (y : Nat) : monthsLen y 1 12 = gregYearLen y := by
  have hexp : monthsLen y 1 12 =
      gregMonthLen y 1 + (gregMonthLen y 2 + (gregMonthLen y 3 + (gregMonthLen y 4 +
        (gregMonthLen y 5 + (gregMonthLen y 6 + (gregMonthLen y 7 + (gregMonthLen y 8 +
        (gregMonthLen y 9 + (gregMonthLen y 10 + (gregMonthLen y 11 +
        (gregMonthLen y 12 + 0))))))))))) := rfl
  rw [hexp]
  unfold gregYearLen
  have h2 : gregMonthLen y 2 = if gregLeap y then 29 else 28 := rfl
  rw [h2, show gregMonthLen y 1 = 31 from rfl, show gregMonthLen y 3 = 31 from rfl,
    show gregMonthLen y 4 = 30 from rfl, show gregMonthLen y 5 = 31 from rfl,
    show gregMonthLen y 6 = 30 from rfl, show gregMonthLen y 7 = 31 from rfl,
    show gregMonthLen y 8 = 31 from rfl, show gregMonthLen y 9 = 30 from rfl,
    show gregMonthLen y 10 = 31 from rfl, show gregMonthLen y 11 = 30 from rfl,
    show gregMonthLen y 12 = 31 from rfl]
  split_ifs <;> omega

theorem nextDay_iterate_year (y : Nat) :
    nextDay^[gregYearLen y] (y, 1, 1) = (y + 1, 1, 1) := by
  rw [← monthsLen_one_twelve, nextDay_iterate_months y 12 1 (by omega) (by omega) (by omega),
    if_neg (by omega)]

/-! ### Day-count bridge between the source weekday formula and day indices -/

theorem total_days_month_step {y m : Nat} (h1 : 1 ≤ m) (h2 : m ≤ 11) :
    total_days y (m + 1) 1 = total_days y m 1 + days_in_month y m := by
  cases hl : is_leap_year y <;> interval_cases m <;>
    simp [total_days, DAYS_BEFORE_MONTH, days_in_month, hl] <;> omega

theorem total_days_year_step {y : Nat} (h1 : 2000 ≤ y) (h2 : y ≤ 2098) :
    total_days (y + 1) 1 1 = total_days y 1 1 + gregYearLen y := by
  have hiff : is_leap_year y = true ↔ ((y % 4 = 0 ∧ y % 100 ≠ 0) ∨ y % 400 = 0) := by
    simp [is_leap_year]
  have hgl : gregLeap y = is_leap_year y := rfl
  cases hl : is_leap_year y with
  | false =>
      have hprop : ¬((y % 4 = 0 ∧ y % 100 ≠ 0) ∨ y % 400 = 0) := by
        rw [← hiff, hl]
        simp
      simp only [total_days, DAYS_BEFORE_MONTH, gregYearLen, hgl, hl]
      simp
      omega
  | true =>
      have hprop : (y % 4 = 0 ∧ y % 100 ≠ 0) ∨ y % 400 = 0 := hiff.mp hl
      simp only [total_days, DAYS_BEFORE_MONTH, gregYearLen, hgl, hl]
      simp
      omega

theorem total_days_day {y m d0 : Nat} :
    total_days y m (d0 + 1) = total_days y m 1 + d0 := by
  simp only [total_days]
  omega

/-! ### The date table and the reference encoding -/

theorem mapMonth {y m p : Nat} (h1 : 1 ≤ m) (h2 : m ≤ 12) (hdate : refDate p = (y, m, 1))
    (hdow : p = total_days y m 1) :
    (List.range' p (days_in_month y m)).map refDateCode = monthBlock y m := by
  unfold monthBlock
  rw [List.range'_eq_map_range, List.map_map]
  refine List.map_congr_left fun d0 hd0 => ?_
  rw [List.mem_range] at hd0
  show refDateCode (p + d0) = date_code_entry y m (d0 + 1)
  have hdate2 : refDate (p + d0) = (y, m, 1 + d0) := by
    unfold refDate
    rw [Nat.add_comm p d0, Function.iterate_add_apply]
    have hp : nextDay^[p] (2000, 1, 1) = (y, m, 1) := hdate
    rw [hp]
    exact nextDay_iterate_within d0 1 (by omega) (by rw [gregMonthLen_eq]; omega)
  have hdw : (6 + (p + d0)) % 7 = get_day_of_week y m (d0 + 1) := by
    unfold get_day_of_week
    rw [total_days_day, ← hdow]
  unfold refDateCode
  rw [hdate2, hdw]
  unfold date_code_entry
  rw [show 1 + d0 = d0 + 1 from by omega]
  rfl

theorem flatMap_range_shift {α : Type} (B : Nat → List α) (m k : Nat) :
    ((List.range (k + 1)).flatMap fun j => B (m + j)) =
      B m ++ (List.range k).flatMap fun j => B (m + 1 + j) := by
  simp only [List.range_succ_eq_map, List.flatMap_cons, List.flatMap_map]
  rw [Nat.add_zero]
  exact congrArg (B m ++ ·)
    (flatMap_congr fun j hj => by rw [show m + j.succ = m + 1 + j from by omega])

theorem mapMonths (y : Nat) :
    ∀ k m p, 1 ≤ m → m + k ≤ 13 → refDate p = (y, m, 1) → p = total_days y m 1 →
      (List.range' p (monthsLen y m k)).map refDateCode =
        (List.range k).flatMap fun j => monthBlock y (m + j) := by
  intro k
  induction k with
  | zero => intro m p _ _ _ _; simp [monthsLen]
  | succ k ih =>
      intro m p h1 h3 hdate hdow
      have hsplit : List.range' p (gregMonthLen y m + monthsLen y (m + 1) k) =
          List.range' p (gregMonthLen y m) ++
            List.range' (p + gregMonthLen y m) (monthsLen y (m + 1) k) := by
        rw [Nat.add_comm (gregMonthLen y m)]
        exact (List.range'_append_1 p (gregMonthLen y m) (monthsLen y (m + 1) k)).symm
      rw [monthsLen_succ, hsplit, List.map_append]
      have hm12 : m ≤ 12 := by omega
      have hfirst : (List.range' p (gregMonthLen y m)).map refDateCode = monthBlock y m := by
        rw [gregMonthLen_eq]
        exact mapMonth h1 hm12 hdate hdow
      rw [hfirst, flatMap_range_shift (monthBlock y) m k]
      refine congrArg (monthBlock y m ++ ·) ?_
      cases k with
      | zero => simp [monthsLen]
      | succ k2 =>
          have hmlt : m < 12 := by omega
          have hdate2 : refDate (p + gregMonthLen y m) = (y, m + 1, 1) := by
            unfold refDate
            rw [Nat.add_comm, Function.iterate_add_apply]
            have hp : nextDay^[p] (2000, 1, 1) = (y, m, 1) := hdate
            rw [hp]
            exact nextDay_iterate_month_lt h1 hmlt
          have hdow2 : p + gregMonthLen y m = total_days y (m + 1) 1 := by
            rw [gregMonthLen_eq, hdow, total_days_month_step h1 (by omega)]
          exact ih (m + 1) (p + gregMonthLen y m) (by omega) (by omega) hdate2 hdow2

theorem mapYears :
    ∀ n y p, 2000 ≤ y → y + n ≤ 2100 → refDate p = (y, 1, 1) →
      (1 ≤ n → p = total_days y 1 1) →
      (List.range' p (yearsLen y n)).map refDateCode =
        (List.range n).flatMap fun i => yearBlock (y + i) := by
  intro n
  induction n with
  | zero => intro y p _ _ _ _; simp [yearsLen]
  | succ n ih =>
      intro y p h1 h2 hdate hdow
      have hdow1 : p = total_days y 1 1 := hdow (by omega)
      have hsplit : List.range' p (gregYearLen y + yearsLen (y + 1) n) =
          List.range' p (gregYearLen y) ++
            List.range' (p + gregYearLen y) (yearsLen (y + 1) n) := by
        rw [Nat.add_comm (gregYearLen y)]
        exact (List.range'_append_1 p (gregYearLen y) (yearsLen (y + 1) n)).symm
      rw [show yearsLen y (n + 1) = gregYearLen y + yearsLen (y + 1) n from rfl,
        hsplit, List.map_append]
      have hfirst : (List.range' p (gregYearLen y)).map refDateCode = yearBlock y := by
        rw [← monthsLen_one_twelve, mapMonths y 12 1 p (by omega) (by omega) hdate hdow1]
        unfold yearBlock
        refine flatMap_congr fun j hj => ?_
        rw [show 1 + j = j + 1 from by omega]
      rw [hfirst, flatMap_range_shift yearBlock y n]
      refine congrArg (yearBlock y ++ ·) ?_
      cases n with
      | zero => simp [yearsLen]
      | succ n2 =>
          have hdate2 : refDate (p + gregYearLen y) = (y + 1, 1, 1) := by
            unfold refDate
            rw [Nat.add_comm, Function.iterate_add_apply]
            have hp : nextDay^[p] (2000, 1, 1) = (y, 1, 1) := hdate
            rw [hp]
            exact nextDay_iterate_year y
          have hdow2 : 1 ≤ n2 + 1 → p + gregYearLen y = total_days (y + 1) 1 1 := by
            intro _
            rw [hdow1, total_days_year_step h1 (by omega)]
          exact ih (y + 1) (p + gregYearLen y) (by omega) (by omega) hdate2 hdow2

/-- The generated date-code table, entry by entry, is the reference encoding. -/
theorem dateCodes_eq_map : dateCodesList = (List.range 36525).map refDateCode := by
  have hyl : yearsLen 2000 100 = 36525 := by decide
  have h := mapYears 100 2000 0 (by omega) (by omega) rfl (fun _ => by decide)
  unfold dateCodesList
  rw [← h, hyl, ← List.range_eq_range']

theorem get_date_code_eq {d : Nat} (hd : d < 36525) : get_date_code d = refDateCode d := by
  unfold get_date_code
  rw [dateCodes_eq_map, if_pos (by simpa using hd), List.getD_eq_getElem?_getD,
    List.getElem?_map, List.getElem?_range hd]
  rfl

/-! ### Time-code table -/

theorem range_mul_flatMap {α : Type} (f : Nat → α) :
    ∀ a b : Nat, (List.range (a * b)).map f =
      (List.range a).flatMap fun i => (List.range b).map fun j => f (b * i + j) := by
  intro a
  induction a with
  | zero => simp
  | succ n ih =>
      intro b
      have hm : (n + 1) * b = n * b + b := by ring
      rw [hm, List.range_add, List.map_append, ih, List.range_succ, List.flatMap_append]
      congr 1
      rw [List.flatMap_cons, List.flatMap_nil, List.append_nil, List.map_map]
      exact List.map_congr_left fun j _ => by
        show f (n * b + j) = f (b * n + j)
        rw [Nat.mul_comm]

theorem refTimeCode_entry (h mi s : Nat) (hh : h < 24) (hmi : mi < 60) (hs : s < 60) :
    refTimeCode (3600 * h + (60 * mi + s)) = timeCodeEntry h mi s := by
  have e1 : (3600 * h + (60 * mi + s)) / 3600 = h := by omega
  have e2 : (3600 * h + (60 * mi + s)) / 60 % 60 = mi := by omega
  have e3 : (3600 * h + (60 * mi + s)) % 60 = s := by omega
  simp only [refTimeCode, timeCodeEntry, e1, e2, e3, Nat.lor_assoc]

/-- The generated time-code table, entry by entry, is the reference encoding. -/
theorem timeCodes_eq_map : timeCodesList = (List.range 86400).map refTimeCode := by
  have h86400 : (86400 : Nat) = 24 * 3600 := by norm_num
  rw [h86400, range_mul_flatMap]
  unfold timeCodesList
  refine flatMap_congr fun h hh => ?_
  rw [List.mem_range] at hh
  have h3600 : (3600 : Nat) = 60 * 60 := by norm_num
  rw [h3600, range_mul_flatMap]
  refine flatMap_congr fun mi hmi => ?_
  rw [List.mem_range] at hmi
  refine List.map_congr_left fun s hs => ?_
  rw [List.mem_range] at hs
  exact (refTimeCode_entry h mi s hh hmi hs).symm

theorem get_time_code_eq {s : Nat} (hs : s < 86400) : get_time_code s = refTimeCode s := by
  unfold get_time_code
  rw [timeCodes_eq_map, if_pos (by simpa using hs), List.getD_eq_getElem?_getD,
    List.getElem?_map, List.getElem?_range hs]
  rfl

/-- **C2.** For every second-of-day `s < 86400`, `get_time_code(s)` returns the
packed BCD word computed from `(s/3600, (s/60)%60, s%60)` (low byte zero). -/
theorem c2_time_code_correct :
    ∀ s : Nat, s < 86400 → get_time_code s = refTimeCode s :=
  fun _ hs => get_time_code_eq hs

/-- **C2, witness** at `s = 45296` (12:34:56). -/
theorem c2_time_code_correct_witness :
    45296 < 86400 ∧ get_time_code 45296 = refTimeCode 45296 :=
  ⟨by decide, c2_time_code_correct 45296 (by decide)⟩

/-- **C1.** For every day index `d < 36525`, `get_date_code(d)` returns the
packed word `(yy_bcd<<24)|(mm_bcd<<16)|(dd_bcd<<8)|ww_bcd` computed from the
Gregorian calendar date exactly `d` days after 2000-01-01, with the weekday
`(6 + d) % 7` (2000-01-01 anchored as Saturday). -/
theorem c1_date_code_correct :
    ∀ d : Nat, d < 36525 → get_date_code d = refDateCode d :=
  fun _ hd => get_date_code_eq hd

/-- **C1, witness** at `d = 59` (2000-02-29, a leap day). -/
theorem c1_date_code_correct_witness :
    59 < 36525 ∧ get_date_code 59 = refDateCode 59 :=
  ⟨by decide, c1_date_code_correct 59 (by decide)⟩

/-! ### Hardware PM-flag relation -/

theorem refTimeCode_lt {s : Nat} (hs : s < 86400) : refTimeCode s < 2 ^ 30 := by
  have h1 : s / 3600 / 10 < 4 := by omega
  have h2 : s / 3600 % 10 < 10 := by omega
  have h3 : s / 60 % 60 / 10 < 6 := by omega
  have h4 : s / 60 % 60 % 10 < 10 := by omega
  have h5 : s % 60 / 10 < 6 := by omega
  have h6 : s % 60 % 10 < 10 := by omega
  unfold refTimeCode
  refine Nat.or_lt_two_pow (Nat.or_lt_two_pow (Nat.or_lt_two_pow (Nat.or_lt_two_pow
    (Nat.or_lt_two_pow ?_ ?_) ?_) ?_) ?_) ?_ <;>
    rw [Nat.shiftLeft_eq] <;> norm_num <;> omega

theorem or_flag_eq_xor {a : Nat} (ha : a < 2 ^ 30) :
    a ||| 0x40000000 = a ^^^ 0x40000000 := by
  have hpow : (0x40000000 : Nat) = 2 ^ 30 := by norm_num
  apply Nat.eq_of_testBit_eq
  intro i
  rw [Nat.testBit_or, Nat.testBit_xor, hpow, Nat.testBit_two_pow]
  by_cases h : 30 = i
  · subst h
    rw [Nat.testBit_lt_two_pow ha]
    simp
  · simp [h]

/-- **C9.** For every `s < 86400`: the 3DS time code equals the base code; for
`"DS"` / `"DS_LITE"` the two codes differ in exactly the single bit
`0x40000000` when `s/3600 ≥ 12` and are equal otherwise. -/
theorem c9_hardware_flag :
    ∀ s : Nat, s < 86400 →
      get_time_code_for_hardware s "3DS" = get_time_code s ∧
      ∀ hw : String, hw = "DS" ∨ hw = "DS_LITE" →
        (12 ≤ s / 3600 →
          get_time_code_for_hardware s hw = get_time_code s ^^^ 0x40000000) ∧
        (s / 3600 < 12 → get_time_code_for_hardware s hw = get_time_code s) := by
  intro s hs
  constructor
  · simp [get_time_code_for_hardware]
  · intro hw hhw
    have hcase : (hw = "DS" ∨ hw = "DS_LITE") := hhw
    constructor
    · intro hpm
      unfold get_time_code_for_hardware
      rw [if_pos hcase, if_pos hpm]
      exact or_flag_eq_xor (lt_of_eq_of_lt (get_time_code_eq hs) (refTimeCode_lt hs))
    · intro ham
      unfold get_time_code_for_hardware
      rw [if_pos hcase, if_neg (by omega)]

/-- **C9, witness** at `s = 43200` (12:00:00). -/
theorem c9_hardware_flag_witness :
    43200 < 86400 ∧
      (get_time_code_for_hardware 43200 "3DS" = get_time_code 43200 ∧
        ∀ hw : String, hw = "DS" ∨ hw = "DS_LITE" →
          (12 ≤ 43200 / 3600 →
            get_time_code_for_hardware 43200 hw = get_time_code 43200 ^^^ 0x40000000) ∧
          (43200 / 3600 < 12 → get_time_code_for_hardware 43200 hw = get_time_code 43200)) :=
  ⟨by decide, c9_hardware_flag 43200 (by decide)⟩

/-! ### SIMD digest lane equivalence -/

/-- Lane `lane` of the SIMD message schedule is the scalar schedule of the
`lane`-th packed block. -/
theorem sha1Wsimd_lane (m : Nat → Nat) :
    ∀ i lane, sha1Wsimd m i lane = sha1W (fun j => m (16 * lane + j)) i := by
  intro i
  induction i using Nat.strong_induction_on with
  | _ i ih =>
      intro lane
      by_cases h : i < 16
      · rw [sha1Wsimd, sha1W]
        simp only [dif_pos h]
      · rw [sha1Wsimd, sha1W]
        simp only [dif_neg h, simd_left_rotate, v128_xor, v128_or, left_rotate]
        rw [ih (i - 3) (by omega), ih (i - 8) (by omega), ih (i - 14) (by omega),
          ih (i - 16) (by omega)]

/-- Lane extraction from the 5-vector SIMD state. -/
def laneProj (lane : Nat) (st : V4State) : Sha1State :=
  (st.1 lane, st.2.1 lane, st.2.2.1 lane, st.2.2.2.1 lane, st.2.2.2.2 lane)

theorem sha1RoundSimd_lane (m : Nat → Nat) (st : V4State) (i lane : Nat) :
    laneProj lane (sha1RoundSimd m st i) =
      sha1Round (fun j => m (16 * lane + j)) (laneProj lane st) i := by
  simp only [sha1RoundSimd, sha1Round, laneProj, sha1FKsimd, sha1FK]
  split_ifs <;>
    simp only [simd_choice, simd_parity, simd_majority, simd_left_rotate, v128_or, v128_and,
      v128_andnot, v128_xor, u32x4_add, u32x4_splat, choice, parity, majority, left_rotate,
      wadd, sha1Wsimd_lane m _ lane] <;>
    rw [Nat.and_comm (notU32 _)]

theorem sha1_fold_lane (m : Nat → Nat) (lane : Nat) :
    ∀ (l : List Nat) (st : V4State),
      laneProj lane (l.foldl (sha1RoundSimd m) st) =
        l.foldl (sha1Round (fun j => m (16 * lane + j))) (laneProj lane st) := by
  intro l
  induction l with
  | nil => intro st; rfl
  | cons a t ih =>
      intro st
      rw [List.foldl_cons, List.foldl_cons, ih, sha1RoundSimd_lane]

/-- The 4-lane digest is the concatenation of the four scalar digests
(shared helper). -/
theorem sha1_simd_eq_scalar (m : Nat → Nat) :
    calculate_pokemon_sha1_simd m =
      (List.range 4).flatMap fun lane =>
        sha1ToList (calculate_pokemon_sha1 fun j => m (16 * lane + j)) := by
  unfold calculate_pokemon_sha1_simd calculate_pokemon_sha1 sha1ToList
  refine flatMap_congr fun lane _ => ?_
  have hst := sha1_fold_lane m lane (List.range 80)
    (u32x4_splat 0x67452301, u32x4_splat 0xEFCDAB89, u32x4_splat 0x98BADCFE,
      u32x4_splat 0x10325476, u32x4_splat 0xC3D2E1F0)
  have hproj : laneProj lane
      (u32x4_splat 0x67452301, u32x4_splat 0xEFCDAB89, u32x4_splat 0x98BADCFE,
        u32x4_splat 0x10325476, u32x4_splat 0xC3D2E1F0) =
      (0x67452301, 0xEFCDAB89, 0x98BADCFE, 0x10325476, 0xC3D2E1F0) := rfl
  rw [hproj] at hst
  have h1 := congrArg (fun q : Sha1State => q.1) hst
  have h2 := congrArg (fun q : Sha1State => q.2.1) hst
  have h3 := congrArg (fun q : Sha1State => q.2.2.1) hst
  have h4 := congrArg (fun q : Sha1State => q.2.2.2.1) hst
  have h5 := congrArg (fun q : Sha1State => q.2.2.2.2) hst
  simp only [laneProj] at h1 h2 h3 h4 h5
  simp only [u32x4_add, u32x4_splat]
  rw [h1, h2, h3, h4, h5]

/-- The digest only reads words `0..15` of the message. -/
theorem sha1W_ext {m m' : Nat → Nat} (h : ∀ j, j < 16 → m j = m' j) :
    ∀ i, sha1W m i = sha1W m' i := by
  intro i
  induction i using Nat.strong_induction_on with
  | _ i ih =>
      by_cases hlt : i < 16
      · conv_lhs => rw [sha1W]
        conv_rhs => rw [sha1W]
        simp only [dif_pos hlt]
        exact h i hlt
      · conv_lhs => rw [sha1W]
        conv_rhs => rw [sha1W]
        simp only [dif_neg hlt]
        rw [ih (i - 3) (by omega), ih (i - 8) (by omega), ih (i - 14) (by omega),
          ih (i - 16) (by omega)]

theorem sha1Round_ext {m m' : Nat → Nat} (h : ∀ j, j < 16 → m j = m' j)
    (st : Sha1State) (i : Nat) : sha1Round m st i = sha1Round m' st i := by
  unfold sha1Round
  rw [sha1W_ext h i]

theorem sha1_ext {m m' : Nat → Nat} (h : ∀ j, j < 16 → m j = m' j) :
    calculate_pokemon_sha1 m = calculate_pokemon_sha1 m' := by
  unfold calculate_pokemon_sha1
  have hf : ∀ (l : List Nat) (st : Sha1State),
      l.foldl (sha1Round m) st = l.foldl (sha1Round m') st := by
    intro l
    induction l with
    | nil => intro st; rfl
    | cons a t ih =>
        intro st
        rw [List.foldl_cons, List.foldl_cons, sha1Round_ext h, ih]
  rw [hf]

theorem filterMap_congr' {α β : Type} {l : List α} {f g : α → Option β}
    (h : ∀ x ∈ l, f x = g x) : l.filterMap f = l.filterMap g := by
  induction l with
  | nil => rfl
  | cons a t ih =>
      rw [List.filterMap_cons, List.filterMap_cons, h a (by simp),
        ih fun x hx => h x (List.mem_cons_of_mem a hx)]

/-- Positions `5*i .. 5*i+4` of the SIMD result are the scalar digest of
block `i`. -/
theorem simd_getD (m : Nat → Nat) :
    ∀ i, i < 4 →
      (((calculate_pokemon_sha1_simd m).getD (i * 5) 0,
        (calculate_pokemon_sha1_simd m).getD (i * 5 + 1) 0,
        (calculate_pokemon_sha1_simd m).getD (i * 5 + 2) 0,
        (calculate_pokemon_sha1_simd m).getD (i * 5 + 3) 0,
        (calculate_pokemon_sha1_simd m).getD (i * 5 + 4) 0) : Sha1State) =
      calculate_pokemon_sha1 (fun j => m (16 * i + j)) := by
  intro i hi
  interval_cases i <;> rw [sha1_simd_eq_scalar] <;> rfl

/-- **C4.** For every 64-word input, the 4-lane digest returns, for each lane
`i < 4`, exactly the five words the scalar digest returns on block `i`:
the 20-word result is the concatenation of the four scalar digests. -/
theorem c4_simd_equals_scalar :
    ∀ m : Nat → Nat, calculate_pokemon_sha1_simd m =
      (List.range 4).flatMap fun lane =>
        sha1ToList (calculate_pokemon_sha1 fun j => m (16 * lane + j)) :=
  fun m => sha1_simd_eq_scalar m

/-- One SIMD batch produces exactly the scalar per-candidate results of its
four second offsets. -/
theorem process_simd_batch_eq (se : IntegratedSeedSearcher) (targets : List Nat) (base : Int)
    (t0 vc off : Nat) :
    process_simd_batch se targets base t0 vc off =
      (List.range' off 4).filterMap fun o => step_result se targets base t0 vc o := by
  rw [List.range'_eq_map_range, List.filterMap_map]
  unfold process_simd_batch
  refine filterMap_congr' fun i hi => ?_
  rw [List.mem_range] at hi
  simp only [Function.comp]
  cases hcd : calculate_datetime_codes se (base + ((off + i : Nat) : Int)) with
  | none =>
      unfold step_result
      simp only [hcd]
  | some tcdc =>
      obtain ⟨tc, dc⟩ := tcdc
      have hagree : (calculate_pokemon_sha1 fun j => batchMsgs se base t0 vc off (16 * i + j)) =
          calculate_pokemon_sha1 (word_at (build_message se t0 vc dc tc)) := by
        refine sha1_ext fun j hj => ?_
        unfold batchMsgs
        simp only [show (16 * i + j) / 16 = i from by omega,
          show (16 * i + j) % 16 = j from by omega, hcd]
      have hS := simd_getD (batchMsgs se base t0 vc off) i hi
      rw [hagree] at hS
      have e1 : (calculate_pokemon_sha1_simd (batchMsgs se base t0 vc off)).getD (i * 5) 0 =
          (calculate_pokemon_sha1 (word_at (build_message se t0 vc dc tc))).1 := by
        rw [← hS]
      have e2 : (calculate_pokemon_sha1_simd (batchMsgs se base t0 vc off)).getD (i * 5 + 1) 0 =
          (calculate_pokemon_sha1 (word_at (build_message se t0 vc dc tc))).2.1 := by
        rw [← hS]
      have e3 : (calculate_pokemon_sha1_simd (batchMsgs se base t0 vc off)).getD (i * 5 + 2) 0 =
          (calculate_pokemon_sha1 (word_at (build_message se t0 vc dc tc))).2.2.1 := by
        rw [← hS]
      have e4 : (calculate_pokemon_sha1_simd (batchMsgs se base t0 vc off)).getD (i * 5 + 3) 0 =
          (calculate_pokemon_sha1 (word_at (build_message se t0 vc dc tc))).2.2.2.1 := by
        rw [← hS]
      have e5 : (calculate_pokemon_sha1_simd (batchMsgs se base t0 vc off)).getD (i * 5 + 4) 0 =
          (calculate_pokemon_sha1 (word_at (build_message se t0 vc dc tc))).2.2.2.2 := by
        rw [← hS]
      unfold step_result
      simp only [hcd, e1, e2, e3, e4, e5]
      rfl

/-- The remainder path is the scalar per-candidate body over its offsets. -/
theorem process_remaining_seconds_eq (se : IntegratedSeedSearcher) (targets : List Nat)
    (base : Int) (t0 vc off bs : Nat) :
    process_remaining_seconds se targets base t0 vc off bs =
      (List.range' off bs).filterMap fun o => step_result se targets base t0 vc o := by
  unfold process_remaining_seconds
  rw [List.range'_eq_map_range, List.filterMap_map]
  rfl

/-- The chunked SIMD second loop equals the scalar filterMap over all
offsets. -/
theorem simdSecondLoop_eq (se : IntegratedSeedSearcher) (targets : List Nat) (base : Int)
    (t0 vc : Nat) :
    ∀ rem off, simdSecondLoop se targets base t0 vc off rem =
      (List.range' off rem).filterMap fun o => step_result se targets base t0 vc o := by
  intro rem
  induction rem using Nat.strong_induction_on with
  | _ rem ih =>
      intro off
      rw [simdSecondLoop]
      by_cases h0 : rem = 0
      · subst h0
        simp
      · rw [if_neg h0]
        by_cases h4 : 4 ≤ rem
        · rw [if_pos h4, process_simd_batch_eq, ih (rem - 4) (by omega) (off + 4)]
          have hsplit : List.range' off 4 ++ List.range' (off + 4) (rem - 4) =
              List.range' off rem := by
            rw [List.range'_append_1]
            congr 1
            omega
          rw [← hsplit, List.filterMap_append]
        · rw [if_neg h4, process_remaining_seconds_eq]

/-- The two searches return identical result lists (shared helper for the
multiset claim). -/
theorem search_simd_eq_scalar (se : IntegratedSeedSearcher)
    (y mo d h mi s rs t0min t0max vcmin vcmax : Nat) (targets : List Nat) :
    search_seeds_integrated_simd se y mo d h mi s rs t0min t0max vcmin vcmax targets =
      search_seeds_integrated se y mo d h mi s rs t0min t0max vcmin vcmax targets := by
  unfold search_seeds_integrated_simd search_seeds_integrated
  cases search_start y mo d h mi s with
  | none => rfl
  | some base =>
      refine flatMap_congr fun t0 _ => flatMap_congr fun vc _ => ?_
      rw [simdSecondLoop_eq, ← List.range_eq_range']

/-- **C5.** For every searcher state and identical arguments, the scalar and
SIMD searches return the same multiset of
`(seed, year, month, date, hour, minute, second, timer0, vcount)` records. -/
theorem c5_search_simd_scalar_equiv :
    ∀ (se : IntegratedSeedSearcher)
      (y mo d h mi s rs t0min t0max vcmin vcmax : Nat) (targets : List Nat),
      Multiset.ofList
          ((search_seeds_integrated_simd se y mo d h mi s rs t0min t0max vcmin vcmax
            targets).map resultTuple) =
        Multiset.ofList
          ((search_seeds_integrated se y mo d h mi s rs t0min t0max vcmin vcmax
            targets).map resultTuple) := by
  intro se y mo d h mi s rs t0min t0max vcmin vcmax targets
  rw [search_simd_eq_scalar]

/-! ### Search completeness -/

theorem flatMap_eq_nil {α β : Type} {l : List α} {f : α → List β}
    (h : ∀ x ∈ l, f x = []) : l.flatMap f = [] := by
  rw [flatMap_congr h]
  simp

theorem flatMap_eq_of_unique {α β : Type} :
    ∀ {l : List α} {f : α → List β} {a : α}, l.Nodup → a ∈ l →
      (∀ x ∈ l, x ≠ a → f x = []) → l.flatMap f = f a := by
  intro l
  induction l with
  | nil =>
      intro f a _ ha _
      exact absurd ha (List.not_mem_nil a)
  | cons b t ih =>
      intro f a hnd ha hother
      rw [List.flatMap_cons]
      rcases List.mem_cons.mp ha with hab | hat
      · subst hab
        have ht : ∀ x ∈ t, f x = [] := by
          intro x hx
          refine hother x (List.mem_cons_of_mem _ hx) ?_
          intro hxa
          subst hxa
          exact (List.nodup_cons.mp hnd).1 hx
        rw [flatMap_eq_nil ht, List.append_nil]
      · have hb : f b = [] := by
          refine hother b (List.mem_cons_self _ _) ?_
          intro hba
          rw [← hba] at hat
          exact (List.nodup_cons.mp hnd).1 hat
        rw [hb, List.nil_append]
        exact ih (List.nodup_cons.mp hnd).2 hat
          fun x hx hxa => hother x (List.mem_cons_of_mem _ hx) hxa

theorem filterMap_eq_nil' {α β : Type} {l : List α} {g : α → Option β}
    (h : ∀ x ∈ l, g x = none) : l.filterMap g = [] := by
  induction l with
  | nil => rfl
  | cons b t ih =>
      rw [List.filterMap_cons_none (h b (by simp)),
        ih fun x hx => h x (List.mem_cons_of_mem _ hx)]

theorem filterMap_eq_of_unique {α β : Type} :
    ∀ {l : List α} {g : α → Option β} {a : α} {r : β}, l.Nodup → a ∈ l → g a = some r →
      (∀ x ∈ l, x ≠ a → g x = none) → l.filterMap g = [r] := by
  intro l
  induction l with
  | nil =>
      intro g a r _ ha _ _
      exact absurd ha (List.not_mem_nil a)
  | cons b t ih =>
      intro g a r hnd ha hr hother
      rcases List.mem_cons.mp ha with hab | hat
      · subst hab
        rw [List.filterMap_cons_some hr]
        have ht : ∀ x ∈ t, g x = none := by
          intro x hx
          refine hother x (List.mem_cons_of_mem _ hx) ?_
          intro hxa
          subst hxa
          exact (List.nodup_cons.mp hnd).1 hx
        rw [filterMap_eq_nil' ht]
      · have hb : g b = none := by
          refine hother b (List.mem_cons_self _ _) ?_
          intro hba
          rw [← hba] at hat
          exact (List.nodup_cons.mp hnd).1 hat
        rw [List.filterMap_cons_none hb]
        exact ih (List.nodup_cons.mp hnd).2 hat hr
          fun x hx hxa => hother x (List.mem_cons_of_mem _ hx) hxa

theorem nextDay_iterate_years : ∀ n y, nextDay^[yearsLen y n] (y, 1, 1) = (y + n, 1, 1) := by
  intro n
  induction n with
  | zero => intro y; simp [yearsLen]
  | succ k ih =>
      intro y
      rw [show yearsLen y (k + 1) = gregYearLen y + yearsLen (y + 1) k from rfl, Nat.add_comm,
        Function.iterate_add_apply, nextDay_iterate_year, ih (y + 1),
        show y + 1 + k = y + (k + 1) from by omega]

/-- The day index of a valid civil date round-trips through the reference
calendar iteration. -/
theorem refDate_of_civil {y m d : Nat} (hy : 2000 ≤ y) (hm1 : 1 ≤ m) (hm2 : m ≤ 12)
    (hd1 : 1 ≤ d) (hd2 : d ≤ gregMonthLen y m) :
    refDate (yearsLen 2000 (y - 2000) + monthsLen y 1 (m - 1) + (d - 1)) = (y, m, d) := by
  unfold refDate
  rw [show yearsLen 2000 (y - 2000) + monthsLen y 1 (m - 1) + (d - 1) =
      (d - 1) + (monthsLen y 1 (m - 1) + yearsLen 2000 (y - 2000)) from by omega,
    Function.iterate_add_apply, Function.iterate_add_apply,
    nextDay_iterate_years (y - 2000) 2000, show 2000 + (y - 2000) = y from by omega]
  have hmchain := nextDay_iterate_months y (m - 1) 1 (by omega) (by omega) (by omega)
  rw [if_pos (by omega)] at hmchain
  rw [hmchain, show 1 + (m - 1) = m from by omega,
    nextDay_iterate_within (d - 1) 1 (by omega) (by omega),
    show 1 + (d - 1) = d from by omega]

theorem step_result_of_nonneg (se : IntegratedSeedSearcher) (targets : List Nat) (base : Int)
    (t0 vc off : Nat) (h : ¬ base + (off : Int) < 0) :
    step_result se targets base t0 vc off =
      check_and_add_result se (engineSeed se base t0 vc off) (engineDigest se base t0 vc off)
        (base + (off : Int)) t0 vc targets := by
  simp only [step_result, calculate_datetime_codes]
  rw [if_neg h]
  rfl

theorem step_result_of_neg (se : IntegratedSeedSearcher) (targets : List Nat) (base : Int)
    (t0 vc off : Nat) (h : base + (off : Int) < 0) :
    step_result se targets base t0 vc off = none := by
  simp only [step_result, calculate_datetime_codes]
  rw [if_pos h]

theorem check_not_target (se : IntegratedSeedSearcher) (seed : Nat) (hd : Sha1State)
    (secs : Int) (t0 vc : Nat) (targets : List Nat) (h : seed ∉ targets) :
    check_and_add_result se seed hd secs t0 vc targets = none := by
  unfold check_and_add_result
  rw [if_neg h]

/-- The display datetime of a valid civil instant, reconstructed from its
linear second index. -/
theorem display_of_civil {cy cm cd ch cmi cs : Nat} (hy1 : 2000 ≤ cy) (hy2 : cy ≤ 262143)
    (hm1 : 1 ≤ cm) (hm2 : cm ≤ 12) (hd1 : 1 ≤ cd) (hd2 : cd ≤ gregMonthLen cy cm)
    (hh : ch < 24) (hmi : cmi < 60) (hs : cs < 60) :
    generate_display_datetime
        ((86400 * (yearsLen 2000 (cy - 2000) + monthsLen cy 1 (cm - 1) + (cd - 1)) +
          (ch * 3600 + cmi * 60 + cs) : Nat) : Int) =
      some (cy, cm, cd, ch, cmi, cs) := by
  set D := yearsLen 2000 (cy - 2000) + monthsLen cy 1 (cm - 1) + (cd - 1) with hD
  set tod := ch * 3600 + cmi * 60 + cs with htod
  have htodlt : tod < 86400 := by omega
  unfold generate_display_datetime
  rw [if_neg (by exact not_lt.mpr (Int.natCast_nonneg _))]
  simp only [Int.toNat_natCast]
  rw [show (86400 * D + tod) / 86400 = D from by omega, hD, refDate_of_civil hy1 hm1 hm2 hd1 hd2,
    if_pos (show ((cy, cm, cd) : Nat × Nat × Nat).1 ≤ 262143 from hy2)]
  rw [show (86400 * D + tod) % 86400 = tod from by omega, show tod / 3600 = ch from by omega,
    show tod / 60 % 60 = cmi from by omega, show (86400 * D + tod) % 60 = cs from by omega]

/-- **C6.** If the engine-derived seed of a single valid in-range candidate
`(instant, timer0, vcount)` is in the target set and no other candidate in the
searched range derives a targeted seed, then the scalar search returns exactly
one record, whose calendar fields are the candidate's instant and whose
register fields are the candidate's registers. -/
theorem c6_search_completeness :
    ∀ (se : IntegratedSeedSearcher)
      (ys ms ds hs mins ss rs t0min t0max vcmin vcmax : Nat)
      (targets : List Nat) (base : Int) (t ct0 cvc cy cm cd ch cmi cs : Nat),
      search_start ys ms ds hs mins ss = some base →
      t < rs →
      t0min ≤ ct0 → ct0 ≤ t0max →
      vcmin ≤ cvc → cvc ≤ vcmax →
      2000 ≤ cy → cy ≤ 262143 → 1 ≤ cm → cm ≤ 12 → 1 ≤ cd → cd ≤ gregMonthLen cy cm →
      ch < 24 → cmi < 60 → cs < 60 →
      base + (t : Int) =
        ((86400 * (yearsLen 2000 (cy - 2000) + monthsLen cy 1 (cm - 1) + (cd - 1)) +
          (ch * 3600 + cmi * 60 + cs) : Nat) : Int) →
      engineSeed se base ct0 cvc t ∈ targets →
      (∀ t2 u2 v2 : Nat, t2 < rs → t0min ≤ u2 → u2 ≤ t0max → vcmin ≤ v2 → v2 ≤ vcmax →
        ¬ base + (t2 : Int) < 0 → engineSeed se base u2 v2 t2 ∈ targets →
        (t2, u2, v2) = (t, ct0, cvc)) →
      search_seeds_integrated se ys ms ds hs mins ss rs t0min t0max vcmin vcmax targets =
        [⟨engineSeed se base ct0 cvc t,
          (engineDigest se base ct0 cvc t).1, (engineDigest se base ct0 cvc t).2.1,
          (engineDigest se base ct0 cvc t).2.2.1, (engineDigest se base ct0 cvc t).2.2.2.1,
          (engineDigest se base ct0 cvc t).2.2.2.2, cy, cm, cd, ch, cmi, cs, ct0, cvc⟩] := by
  intro se ys ms ds hs mins ss rs t0min t0max vcmin vcmax targets base t ct0 cvc cy cm cd ch
    cmi cs hstart ht ht0a ht0b hvca hvcb hy1 hy2 hm1 hm2 hd1 hd2 hch hcmi hcs hsecs hseed huniq
  have hnn : ¬ base + (t : Int) < 0 := by
    rw [hsecs]
    exact not_lt.mpr (Int.natCast_nonneg _)
  unfold search_seeds_integrated
  rw [hstart]
  show (List.range' t0min (t0max + 1 - t0min)).flatMap
      (fun timer0 => (List.range' vcmin (vcmax + 1 - vcmin)).flatMap fun vcount =>
        (List.range rs).filterMap fun off =>
          step_result se targets base timer0 vcount off) = _
  have hbound_t0 : ∀ x ∈ List.range' t0min (t0max + 1 - t0min), t0min ≤ x ∧ x ≤ t0max := by
    intro x hx
    obtain ⟨i, hi, hxeq⟩ := List.mem_range'.mp hx
    omega
  have hbound_vc : ∀ x ∈ List.range' vcmin (vcmax + 1 - vcmin), vcmin ≤ x ∧ x ≤ vcmax := by
    intro x hx
    obtain ⟨i, hi, hxeq⟩ := List.mem_range'.mp hx
    omega
  have hstep_none : ∀ u v off : Nat, t0min ≤ u → u ≤ t0max → vcmin ≤ v → v ≤ vcmax →
      off < rs → ¬ (off, u, v) = (t, ct0, cvc) →
      step_result se targets base u v off = none := by
    intro u v off hu1 hu2 hv1 hv2 hoff hne
    by_cases hneg : base + (off : Int) < 0
    · exact step_result_of_neg _ _ _ _ _ _ hneg
    · rw [step_result_of_nonneg _ _ _ _ _ _ hneg]
      refine check_not_target _ _ _ _ _ _ _ ?_
      intro hmem
      exact hne (huniq off u v hoff hu1 hu2 hv1 hv2 hneg hmem)
  have hmem_t0 : ct0 ∈ List.range' t0min (t0max + 1 - t0min) := by
    rw [List.mem_range']
    exact ⟨ct0 - t0min, by omega, by omega⟩
  have hmem_vc : cvc ∈ List.range' vcmin (vcmax + 1 - vcmin) := by
    rw [List.mem_range']
    exact ⟨cvc - vcmin, by omega, by omega⟩
  rw [flatMap_eq_of_unique (List.nodup_range' _ _) hmem_t0
    (fun x hx hxne => flatMap_eq_nil fun v hv => filterMap_eq_nil' fun off hoff =>
      hstep_none x v off (hbound_t0 x hx).1 (hbound_t0 x hx).2 (hbound_vc v hv).1
        (hbound_vc v hv).2 (List.mem_range.mp hoff)
        (by simp only [Prod.mk.injEq]; intro hh; exact hxne hh.2.1))]
  show (List.range' vcmin (vcmax + 1 - vcmin)).flatMap
      (fun vcount => (List.range rs).filterMap fun off =>
        step_result se targets base ct0 vcount off) = _
  rw [flatMap_eq_of_unique (List.nodup_range' _ _) hmem_vc
    (fun v hv hvne => filterMap_eq_nil' fun off hoff =>
      hstep_none ct0 v off ht0a ht0b (hbound_vc v hv).1 (hbound_vc v hv).2
        (List.mem_range.mp hoff)
        (by simp only [Prod.mk.injEq]; intro hh; exact hvne hh.2.2))]
  show (List.range rs).filterMap
      (fun off => step_result se targets base ct0 cvc off) = _
  refine filterMap_eq_of_unique (List.nodup_range _) (List.mem_range.mpr ht) ?_ ?_
  · rw [step_result_of_nonneg _ _ _ _ _ _ hnn]
    unfold check_and_add_result
    rw [if_pos hseed, hsecs, display_of_civil hy1 hy2 hm1 hm2 hd1 hd2 hch hcmi hcs]
  · intro off hoff hoffne
    exact hstep_none ct0 cvc off ht0a ht0b hvca hvcb (List.mem_range.mp hoff)
      (by simp only [Prod.mk.injEq]; intro hh; exact hoffne hh.1)

/-- **C6, witness**: a one-candidate scenario (2000-01-01 00:00:00, registers
`(0, 0)`, duration 1 s) whose engine seed is the single target. -/
theorem c6_search_completeness_witness :
    search_start 2000 1 1 0 0 0 = some 0 ∧
    0 < 1 ∧ 2000 ≤ (2000 : Nat) ∧ (2000 : Nat) ≤ 262143 ∧ (1 : Nat) ≤ gregMonthLen 2000 1 ∧
    ((0 : Int) + ((0 : Nat) : Int) =
      ((86400 * (yearsLen 2000 (2000 - 2000) + monthsLen 2000 1 (1 - 1) + (1 - 1)) +
        (0 * 3600 + 0 * 60 + 0) : Nat) : Int)) ∧
    engineSeed ⟨"DS", []⟩ 0 0 0 0 ∈ [engineSeed ⟨"DS", []⟩ 0 0 0 0] ∧
    search_seeds_integrated ⟨"DS", []⟩ 2000 1 1 0 0 0 1 0 0 0 0
        [engineSeed ⟨"DS", []⟩ 0 0 0 0] =
      [⟨engineSeed ⟨"DS", []⟩ 0 0 0 0,
        (engineDigest ⟨"DS", []⟩ 0 0 0 0).1, (engineDigest ⟨"DS", []⟩ 0 0 0 0).2.1,
        (engineDigest ⟨"DS", []⟩ 0 0 0 0).2.2.1, (engineDigest ⟨"DS", []⟩ 0 0 0 0).2.2.2.1,
        (engineDigest ⟨"DS", []⟩ 0 0 0 0).2.2.2.2, 2000, 1, 1, 0, 0, 0, 0, 0⟩] :=
  ⟨by decide, by decide, by decide, by decide, by decide, by decide,
    List.mem_singleton.mpr rfl,
    c6_search_completeness ⟨"DS", []⟩ 2000 1 1 0 0 0 1 0 0 0 0
      [engineSeed ⟨"DS", []⟩ 0 0 0 0] 0 0 0 0 2000 1 1 0 0 0
      (by decide) (by decide) (by decide) (by decide) (by decide) (by decide)
      (by decide) (by decide) (by decide) (by decide) (by decide) (by decide)
      (by decide) (by decide) (by decide) (by decide)
      (List.mem_singleton.mpr rfl)
      (by
        intro t2 u2 v2 h1 h2 h3 h4 h5 _ _
        simp only [Prod.mk.injEq]
        omega)⟩

/-- **C7.** `IntegratedSeedSearcher::new(mac, nazo, hardware, key_input, frame)`
returns `Ok` iff `mac` has exactly 6 bytes, `nazo` has exactly 5 words, and
`hardware` is one of `"DS"`, `"DS_LITE"`, `"3DS"`; any violation is an error
at construction, and `key_input` / `frame` are unconstrained. -/
theorem c7_new_ok_iff :
    ∀ (mac nazo : List Nat) (hardware : String) (key_input frame : Nat),
      (IntegratedSeedSearcher.new mac nazo hardware key_input frame).isOk = true ↔
        (mac.length = 6 ∧ nazo.length = 5 ∧
          (hardware = "DS" ∨ hardware = "DS_LITE" ∨ hardware = "3DS")) := by
  intro mac nazo hardware key_input frame
  unfold IntegratedSeedSearcher.new
  split_ifs with h1 h2 h3 <;> simp [Except.isOk, Except.toBool] <;> tauto

/-- **C8.** `search_seeds_integrated` returns an empty collection, without any
error, whenever `range_seconds = 0`, or — immediately, before any
per-candidate work — whenever the start datetime is rejected by the calendar
validation (e.g. month 13). -/
theorem c8_empty_range_and_invalid_date :
    ∀ (se : IntegratedSeedSearcher)
      (y mo d h mi s t0min t0max vcmin vcmax : Nat) (targets : List Nat),
      search_seeds_integrated se y mo d h mi s 0 t0min t0max vcmin vcmax targets = [] ∧
      ((chronoValidDate (u32AsI32 y) mo d && chronoValidTime h mi s) = false →
        ∀ range_seconds : Nat,
          search_seeds_integrated se y mo d h mi s range_seconds t0min t0max vcmin vcmax
            targets = []) := by
  intro se y mo d h mi s t0min t0max vcmin vcmax targets
  constructor
  · unfold search_seeds_integrated
    cases search_start y mo d h mi s with
    | none => rfl
    | some base =>
        refine flatMap_eq_nil fun t0 _ => flatMap_eq_nil fun vc _ => ?_
        simp
  · intro hinv range_seconds
    unfold search_seeds_integrated search_start
    rw [if_neg (by simp [hinv])]

/-- **C8, witness**: a zero-duration search and a month-13 search both return
the empty collection. -/
theorem c8_empty_range_and_invalid_date_witness :
    (search_seeds_integrated ⟨"DS", []⟩ 2000 1 1 0 0 0 0 0 0 0 0 [] = []) ∧
      ((chronoValidDate (u32AsI32 2000) 13 1 && chronoValidTime 0 0 0) = false ∧
        search_seeds_integrated ⟨"DS", []⟩ 2000 13 1 0 0 0 5 0 0 0 0 [] = []) :=
  ⟨(c8_empty_range_and_invalid_date ⟨"DS", []⟩ 2000 1 1 0 0 0 0 0 0 0 []).1,
    by decide,
    (c8_empty_range_and_invalid_date ⟨"DS", []⟩ 2000 13 1 0 0 0 0 0 0 0 []).2 (by decide) 5⟩

/-- **C10.** For every hardware string outside `{"DS", "DS_LITE", "3DS"}` and
every second-of-day, `get_time_code_for_hardware` silently falls back to the
unflagged base value `get_time_code`. -/
theorem c10_unknown_hardware_fallback :
    ∀ (hardware : String), hardware ≠ "DS" → hardware ≠ "DS_LITE" → hardware ≠ "3DS" →
      ∀ s : Nat, get_time_code_for_hardware s hardware = get_time_code s := by
  intro hardware h1 h2 h3 s
  unfold get_time_code_for_hardware
  rw [if_neg (by tauto), if_neg h3]

/-- **C10, witness** at `hardware = "GBA"`, `s = 0`. -/
theorem c10_unknown_hardware_fallback_witness :
    ("GBA" ≠ "DS" ∧ "GBA" ≠ "DS_LITE" ∧ "GBA" ≠ "3DS") ∧
      get_time_code_for_hardware 0 "GBA" = get_time_code 0 :=
  ⟨⟨by decide, by decide, by decide⟩,
    c10_unknown_hardware_fallback "GBA" (by decide) (by decide) (by decide) 0⟩

end PokeInit
